import Mathlib

/-
  Verification of the pymusical MusicConverter (src/pymusical/converter.py)
  against its natural-language specification.

  The Python code is shallowly embedded:
  * pyparsing grammars become character-list parsers returning `Option`
    (parse failure = pyparsing ParseException);
  * parse actions that raise become `Except PyFail`;
  * Python float literals produced by the grammars are decimal numbers, so
    they are modelled exactly by `Dec` (an integer scaled by a power of ten);
    the transcendental float arithmetic of the frequency and gain setters is
    modelled over `Real`;
  * Python `//` and `%` (floor division, nonnegative remainder for positive
    divisors) become `Int.fdiv` / `Int.emod`;
  * Python `round` (round half to even) becomes `Dec.roundPy`.
-/

deriving instance DecidableEq for Except

namespace PyMus

/-- Failure kinds raised by the Python code: pyparsing ParseException,
ValueError from a parse action, MusicConverterError, TypeError. -/
inductive PyFail where
  | parseFail
  | valueFail
  | mcFail
  | typeFail
deriving DecidableEq, Repr

/-- Ten to the power e, by plain recursion. -/
def tenPow : ℕ → ℕ
  | 0 => 1
  | e + 1 => 10 * tenPow e

/-- Exact decimal number n / 10^e: the value of every decimal float literal
the Python grammars build (pre-normalization, so arithmetic stays in ℤ). -/
structure Dec where
  n : ℤ
  e : ℕ
deriving DecidableEq, Repr

/-- The rational value of a `Dec`. -/
def Dec.toRat (d : Dec) : ℚ := Rat.divInt d.n (tenPow d.e)

/-- Embed an integer. -/
def Dec.ofInt (i : ℤ) : Dec := ⟨i, 0⟩

/-- Add an integer to a decimal (Python `int + float`). -/
def Dec.addInt (i : ℤ) (d : Dec) : Dec := ⟨i * (tenPow d.e : ℤ) + d.n, d.e⟩

/-- Divide by 100 (exact for decimals). -/
def Dec.div100 (d : Dec) : Dec := ⟨d.n, d.e + 2⟩

/-- Scale by a sign (±1). -/
def Dec.scale (sg : ℤ) (d : Dec) : Dec := ⟨sg * d.n, d.e⟩

/-- i ≤ value of d (used for the float range checks of the setters). -/
def Dec.geI (d : Dec) (i : ℤ) : Prop := i * (tenPow d.e : ℤ) ≤ d.n

/-- value of d ≤ i. -/
def Dec.leI (d : Dec) (i : ℤ) : Prop := d.n ≤ i * (tenPow d.e : ℤ)

instance (d : Dec) (i : ℤ) : Decidable (d.geI i) := by unfold Dec.geI; infer_instance

instance (d : Dec) (i : ℤ) : Decidable (d.leI i) := by unfold Dec.leI; infer_instance

/-- Math floor of the value (Python `int(floor ...)` via `Int.fdiv`). -/
def Dec.floorI (d : Dec) : ℤ := d.n.fdiv (tenPow d.e)

/-- Python `round`: round half to even. -/
def Dec.roundPy (d : Dec) : ℤ :=
  let f := d.floorI
  let r2 := 2 * (d.n - f * (tenPow d.e : ℤ))
  if r2 < (tenPow d.e : ℤ) then f
  else if ((tenPow d.e : ℤ)) < r2 then f + 1
  else if f % 2 = 0 then f else f + 1

/-! ## Grammar primitives (converter.py lines 22-60)

pyparsing skips ' ', '\t', '\n' before each sub-expression;
`no_whites = NotAny(White())` forbids whitespace at the current position. -/

/-- Default pyparsing whitespace characters. -/
def isWsChar (c : Char) : Bool := c == ' ' || c == '\t' || c == '\n'

/-- Skip leading whitespace (pyparsing preParse). -/
def skipWs : List Char → List Char
  | [] => []
  | c :: cs => if isWsChar c then skipWs cs else c :: cs

/-- True when the next character is whitespace; `no_whites` fails there. -/
def headWs : List Char → Bool
  | [] => false
  | c :: _ => isWsChar c

/-- Consume a maximal run of digits, returning value, digit count and rest
(pyparsing `Word(nums)` requires count ≥ 1, checked by callers). -/
def digitsAux : List Char → ℕ → ℕ → ℕ × ℕ × List Char
  | [], v, n => (v, n, [])
  | c :: cs, v, n =>
    if c.isDigit then digitsAux cs (v * 10 + (c.toNat - 48)) (n + 1)
    else (v, n, c :: cs)

/-- `real = Combine(Word(nums) + Optional(Char(',.') + Word(nums)))`:
unsigned decimal with '.' or ',' separator, to a float — modelled as the
exact decimal (converter.py line 27). -/
def parseReal (cs : List Char) : Option (Dec × List Char) :=
  let cs1 := skipWs cs
  match digitsAux cs1 0 0 with
  | (v, n, rest) =>
    if n = 0 then none
    else
      match rest with
      | sep :: rest2 =>
        if sep = ',' ∨ sep = '.' then
          match digitsAux rest2 0 0 with
          | (f, m, rest3) =>
            if m = 0 then some (⟨(v : ℤ), 0⟩, rest)
            else some (⟨(v : ℤ) * (tenPow m : ℤ) + (f : ℤ), m⟩, rest3)
        else some (⟨(v : ℤ), 0⟩, rest)
      | [] => some (⟨(v : ℤ), 0⟩, [])

/-- `integer = Optional('-') + Word(nums)` (converter.py line 30);
pyparsing tolerates whitespace between the '-' and the digits. -/
def parseIntC (cs : List Char) : Option (ℤ × List Char) :=
  let cs1 := skipWs cs
  match cs1 with
  | '-' :: r =>
    match digitsAux (skipWs r) 0 0 with
    | (v, n, rest) => if n = 0 then none else some (-(v : ℤ), rest)
  | _ =>
    match digitsAux cs1 0 0 with
    | (v, n, rest) => if n = 0 then none else some ((v : ℤ), rest)

/-- `may_sign = Optional(Char('+-'))` mapped to ±1 (converter.py line 36);
the Optional consumes leading whitespace even when no sign is present. -/
def parseMaySign (cs : List Char) : ℤ × List Char :=
  let cs1 := skipWs cs
  match cs1 with
  | '+' :: r => (1, r)
  | '-' :: r => (-1, r)
  | _ => (1, cs1)

/-- `must_sign = Char('+-')` mapped to ±1 (converter.py line 35). -/
def parseMustSign (cs : List Char) : Option (ℤ × List Char) :=
  let cs1 := skipWs cs
  match cs1 with
  | '+' :: r => some (1, r)
  | '-' :: r => some (-1, r)
  | _ => none

/-! ## Note grammar (converter.py lines 42-80) -/

/-- `note_name_offset` table, case-insensitive (converter.py lines 43-54). -/
def letterOffset (c : Char) : Option ℤ :=
  if c = 'C' ∨ c = 'c' then some (-9)
  else if c = 'D' ∨ c = 'd' then some (-7)
  else if c = 'E' ∨ c = 'e' then some (-5)
  else if c = 'F' ∨ c = 'f' then some (-4)
  else if c = 'G' ∨ c = 'g' then some (-2)
  else if c = 'A' ∨ c = 'a' then some 0
  else if c = 'B' ∨ c = 'b' then some 2
  else none

/-- `full_note = note_name + no_whites + Optional(flat_sharp) + no_whites +
octave` (converter.py line 58): letter offset + accidental (+1 or -1) +
(digit-4)*12, all characters adjacent. -/
def parseFullNote (cs : List Char) : Option (ℤ × List Char) :=
  match skipWs cs with
  | [] => none
  | c :: rest =>
    match letterOffset c with
    | none => none
    | some lo =>
      if headWs rest then none
      else
        let p : ℤ × List Char :=
          match rest with
          | '#' :: r => (1, r)
          | 'b' :: r => (-1, r)
          | _ => (0, rest)
        if headWs p.2 then none
        else
          match p.2 with
          | d :: r2 =>
            if d.isDigit then some (lo + p.1 + ((d.toNat : ℤ) - 48 - 4) * 12, r2)
            else none
          | [] => none

/-- `StringEnd() ^ cent` after the main note (converter.py line 79), with
`cent = must_sign + no_whites + real + StringEnd()` giving sign*real/100
(line 40).  Returns `some none` at end of input, `some (some d)` for a
cent suffix. -/
def parseEndOrCent (cs : List Char) : Option (Option Dec) :=
  if skipWs cs = [] then some none
  else
    match parseMustSign cs with
    | none => none
    | some (sg, r1) =>
      if headWs r1 then none
      else
        match parseReal r1 with
        | none => none
        | some (v, r2) =>
          if skipWs r2 = [] then some (some ((Dec.scale sg v).div100)) else none

/-- The raw token structure produced by `note_parser` (converter.py
lines 73-80): optional first note of an enharmonic pair `X/Y`, the main
note, and an optional cent suffix. -/
def noteParseToks (cs : List Char) : Option (Option ℤ × ℤ × Option Dec) :=
  let tryPair : Option (ℤ × List Char) :=
    match parseFullNote cs with
    | some (v1, r1) =>
      match r1 with
      | '/' :: r2 =>
        if headWs r2 then none
        else
          match parseFullNote r2 with
          | some _ => some (v1, r2)
          | none => none
      | _ => none
    | none => none
  match tryPair with
  | some (v1, r2) =>
    match parseFullNote r2 with
    | some (v2, r3) => (parseEndOrCent r3).map (fun c => (some v1, v2, c))
    | none => none
  | none =>
    match parseFullNote cs with
    | some (v2, r3) => (parseEndOrCent r3).map (fun c => (none, v2, c))
    | none => none

/-- `note_parser` with `note_parser_action` (converter.py lines 64-80):
an enharmonic pair whose sides differ raises ValueError; otherwise the
tokens are summed. -/
def noteParse (cs : List Char) : Except PyFail Dec :=
  match noteParseToks cs with
  | none => .error .parseFail
  | some (some v1, v2, c) =>
    if v1 ≠ v2 then .error .valueFail
    else .ok (match c with | some d => Dec.addInt v1 d | none => Dec.ofInt v1)
  | some (none, v2, c) =>
    .ok (match c with | some d => Dec.addInt v2 d | none => Dec.ofInt v2)

/-! ## Physical-unit grammar (converter.py lines 83-158) -/

/-- `hertz_parser = real + 'Hz'`, value is the real (converter.py line 83). -/
def hertzParse (cs : List Char) : Option (Dec × List Char) :=
  match parseReal cs with
  | none => none
  | some (v, r) =>
    match skipWs r with
    | 'H' :: 'z' :: rest => some (v, rest)
    | _ => none

/-- `gain_parser = may_sign + no_whites + real + no_whites + 'dB'`
(converter.py line 153); the parsed tokens give sign*real dB (the parse
action then stores the amplitude 10^(sign*real/20), taken over ℝ below). -/
def gainParse (cs : List Char) : Option (Dec × List Char) :=
  let p := parseMaySign cs
  if headWs p.2 then none
  else
    match parseReal p.2 with
    | none => none
    | some (v, r2) =>
      if headWs r2 then none
      else
        match r2 with
        | 'd' :: 'B' :: rest => some (Dec.scale p.1 v, rest)
        | _ => none

/-- `amp_parser = real + '%'` giving real/100 (converter.py line 149). -/
def ampParse (cs : List Char) : Option (Dec × List Char) :=
  match parseReal cs with
  | none => none
  | some (v, r) =>
    match skipWs r with
    | '%' :: rest => some (v.div100, rest)
    | _ => none

/-- The twelfth-root-of-2 constant of converter.py line 20, as the exact
rational value of that decimal literal. -/
def rootQ : ℚ := Rat.divInt 10594630943592952645618252949463 (10 ^ 31)

/-- `base_parser = full_note + '=' + hertz_parser` (converter.py line 157).
The parse action computes hertz * root^(-note); the factors are kept
symbolic here (hertz decimal and note), the product is taken where the
value is consumed. -/
def baseParse (cs : List Char) : Option ((Dec × ℤ) × List Char) :=
  match parseFullNote cs with
  | none => none
  | some (n, r1) =>
    match skipWs r1 with
    | '=' :: r2 =>
      match hertzParse r2 with
      | none => none
      | some (hz, r3) => some ((hz, n), r3)
    | _ => none

/-! ## Score grammar (converter.py lines 133-146) -/

/-- pyparsing Keyword identifier characters (alphanumerics, '_', '$'). -/
def identChar (c : Char) : Bool := c.isAlphanum || c == '_' || c == '$'

/-- True when the next character would extend a Keyword match. -/
def headIdent : List Char → Bool
  | [] => false
  | c :: _ => identChar c

/-- `Keyword('sc')` (converter.py line 134). -/
def kwSc (cs : List Char) : Option (List Char) :=
  match skipWs cs with
  | 's' :: 'c' :: rest => if headIdent rest then none else some rest
  | _ => none

/-- The accidental alternation `'##' | 'bb' | '_' | '#' | 'b' | 'n'`
of Keywords (converter.py lines 135-144). -/
def accKw (cs : List Char) : Option (String × List Char) :=
  let cs1 := skipWs cs
  let try2 : Option (String × List Char) :=
    match cs1 with
    | '#' :: '#' :: r => if headIdent r then none else some (r"##", r)
    | 'b' :: 'b' :: r => if headIdent r then none else some (r"bb", r)
    | _ => none
  match try2 with
  | some res => some res
  | none =>
    match cs1 with
    | '_' :: r => if headIdent r then none else some (r"_", r)
    | '#' :: r => if headIdent r then none else some (r"#", r)
    | 'b' :: r => if headIdent r then none else some (r"b", r)
    | 'n' :: r => if headIdent r then none else some (r"n", r)
    | _ => none

/-- `LineEnd()`: skip spaces and tabs, then end of input or a newline. -/
def lineEndChk : List Char → Option (List Char)
  | [] => some []
  | c :: cs =>
    if c == ' ' || c == '\t' then lineEndChk cs
    else if c == '\n' then some cs
    else none

/-- `score_parser` (converter.py lines 133-146): either
`sc <integer> : <accidental>` or `sc <integer> <line end>`. -/
def scoreParse (cs : List Char) : Option (ℤ × Option String × List Char) :=
  let alt1 : Option (ℤ × Option String × List Char) :=
    match kwSc cs with
    | none => none
    | some r1 =>
      match parseIntC r1 with
      | none => none
      | some (i, r2) =>
        match skipWs r2 with
        | ':' :: r3 =>
          match accKw r3 with
          | none => none
          | some (a, r4) => some (i, some a, r4)
        | _ => none
  match alt1 with
  | some res => some res
  | none =>
    match kwSc cs with
    | none => none
    | some r1 =>
      match parseIntC r1 with
      | none => none
      | some (i, r2) =>
        match lineEndChk r2 with
        | some r3 => some (i, none, r3)
        | none => none

/-! ## The unified input grammar (converter.py lines 162-167)

`input_parser = note_parser ^ hertz_parser ^ score_parser ^ base_parser ^
amp_parser ^ gain_parser`.  pyparsing `^` (Or) picks the longest match; a
ValueError raised by note_parser's action propagates out of parseString.
There is no key alternative and no clef alternative (the code carries a
"todo: not all properties are parsed, yet" comment at line 161). -/

/-- The typed result of the unified grammar: which property `set` would
assign, with the parsed value. -/
inductive SetAct where
  | nvA (d : Dec)
  | freqA (d : Dec)
  | scoreA (i : ℤ) (a : Option String)
  | baseA (hz : Dec) (note : ℤ)
  | ampA (d : Dec)
  | gainA (d : Dec)
deriving DecidableEq, Repr

/-- Choose the candidate with the fewest remaining characters (longest
match), earliest alternative winning ties — pyparsing `Or` semantics. -/
def pickBest (cands : List (Option (SetAct × ℕ))) : Option SetAct :=
  (cands.foldl
    (fun best c =>
      match best, c with
      | none, c2 => c2
      | some b, none => some b
      | some b, some c2 => if c2.2 < b.2 then some c2 else some b)
    none).map Prod.fst

/-- The unified `input_parser`.  The note alternative, when it matches,
always consumes the whole input (its grammar ends at StringEnd), so it
wins the longest-match comparison; its ValueError propagates. -/
def inputParse (cs : List Char) : Except PyFail SetAct :=
  match noteParse cs with
  | .ok d => .ok (.nvA d)
  | .error .valueFail => .error .valueFail
  | .error _ =>
    match pickBest
      [(hertzParse cs).map (fun p => (SetAct.freqA p.1, p.2.length)),
       (scoreParse cs).map (fun p => (SetAct.scoreA p.1 p.2.1, p.2.2.length)),
       (baseParse cs).map (fun p => (SetAct.baseA p.1.1 p.1.2, p.2.length)),
       (ampParse cs).map (fun p => (SetAct.ampA p.1, p.2.length)),
       (gainParse cs).map (fun p => (SetAct.gainA p.1, p.2.length))] with
    | some a => .ok a
    | none => .error .parseFail

/-! ## Key and clef tables (converter.py lines 395-417 and 541-551) -/

/-- The `keys` property: name, circle-of-fifths ordinal, 12-slot accidental
pattern (converter.py lines 401-416). -/
def keysAssoc : List (String × ℤ × String) :=
  [(r"C/a", 0, r"_ _ __ _ _ _"),
   (r"F/d", 1, r"_ _ __ _ _b "),
   (r"Bb/g", 2, r"_ _b _ _ _b "),
   (r"Eb/c", 3, r"_ _b _ _b b "),
   (r"Ab/f", 4, r"_b b _ _b b "),
   (r"Db/bb", 5, r"_b b _b b b "),
   (r"C#/a#", 5, r"## # ## # # "),
   (r"F#/d#", 6, r" # # ## # #_"),
   (r"Gb/eb", 6, r" b bb_b b b "),
   (r"B/g#", 7, r" # #_ # # #_"),
   (r"Cb/ab", 7, r" b bb b b bb"),
   (r"E/c#", 8, r" # #_ # #_ _"),
   (r"A/f#", 9, r" #_ _ # #_ _"),
   (r"D/b", 10, r" #_ _ #_ _ _"),
   (r"G/e", 11, r"_ _ _ #_ _ _")]

/-- The key names accepted by the key setter. -/
def keyNames : List String := keysAssoc.map Prod.fst

/-- Pattern lookup `self.keys[self.key][1]`.  The key setter guarantees
membership, so the default is unreachable. -/
def keyPattern (k : String) : String := ((keysAssoc.lookup k).getD (0, r"_ _ __ _ _ _")).2

/-- The `clefs` property (converter.py lines 547-551). -/
def clefsAssoc : List (String × ℤ) :=
  [(r"violin", -6), (r"alto", 0), (r"bass", 6)]

/-- The clef names accepted by the clef setter. -/
def clefNames : List String := clefsAssoc.map Prod.fst

/-- Offset lookup `self.clefs[self.clef]`. -/
def clefOffset (c : String) : ℤ := (clefsAssoc.lookup c).getD 0

/-- `self.keys[self.key][1].replace(' ', '')`: the seven per-letter
accidental characters of the key. -/
def keyAccList (k : String) : List Char := (keyPattern k).data.filter (fun c => c ≠ ' ')

/-- `key_offset = [1 if c == '#' else -1 if c == 'b' else 0 ...]`
(converter.py line 434). -/
def keyOffs (k : String) : List ℤ :=
  (keyAccList k).map (fun c => if c = '#' then 1 else if c = 'b' then -1 else 0)

/-- The C-major diatonic chromatic offsets (converter.py lines 426 and 505). -/
def baseVals : List ℤ := [-9, -7, -5, -4, -2, 0, 2]

/-- The signed-offset-to-symbol table `acc` (converter.py lines 443-449). -/
def accSym (o : ℤ) : String :=
  if o = -2 then r"bb"
  else if o = -1 then r"b"
  else if o = 0 then r"n"
  else if o = 1 then r"#"
  else r"##"

/-- Python list indexing with negative wrap-around, as used by
`key_offset[head_position - 1]` when head_position is 0. -/
def pyGet (l : List ℤ) (i : ℤ) : ℤ :=
  if 0 ≤ i then l.getD i.toNat 0 else l.getD (l.length - (-i).toNat) 0

/-- The `octave` property (converter.py line 314):
`int(ceil((round(note_value) - 2) / 12) + 4)` on the rounded value. -/
def octaveOf (steps : ℤ) : ℤ := -(((2 : ℤ) - steps).fdiv 12) + 4

/-! ## Notation getter (converter.py lines 419-465)

Every use of `self.note_value` in the getter is wrapped in `round`, so the
conversion is a function of the rounded value `steps`. -/

/-- The notation getter: list of (head position, accidental) pairs for the
rounded note value under key k and clef c. -/
def scoreOf (k c : String) (steps : ℤ) : List (ℤ × String) :=
  let octv := octaveOf steps
  let headOff := (octv - 4) * 7 + clefOffset c
  let ko7 := keyOffs k
  let ko8 := ko7 ++ [ko7.headD 0]
  let vals7 := (List.range 7).map (fun i => baseVals.getD i 0 + ko7.getD i 0)
  let vals8 := vals7 ++ [vals7.headD 0 + 12]
  let nio0 := (steps + 9).emod 12 - 9
  let wrapped := nio0 = vals8.getD 6 0 - 12
  let nio := if wrapped then nio0 + 12 else nio0
  let headOff2 := if wrapped then headOff - 7 else headOff
  match vals8.findIdx? (fun v => v == nio) with
  | some hp => [(headOff2 + (hp : ℤ), r"_")]
  | none =>
    let i : ℤ := ((vals8.findIdx? (fun v => decide (nio < v))).getD 7 : ℕ)
    [(headOff2 + i - 1, accSym (pyGet ko8 (i - 1) + 1)),
     (headOff2 + i, accSym (pyGet ko8 i - 1))]

/-! ## Notation setter (converter.py lines 467-537) -/

/-- The accidental reconciliation block of the notation setter
(converter.py lines 516-535): requested accidental against the key's
implied accidental character, giving the offset or MusicConverterError. -/
def accOffsetOf (acc : String) (vz : Char) : Except PyFail ℤ :=
  if acc = "_" then .ok 0
  else if acc = "n" ∧ (vz = 'b' ∨ vz = '#') then
    (if vz = 'b' then .ok 1 else .ok (-1))
  else if (acc = "b" ∨ acc = "#") ∧ vz = '_' then
    (if acc = "b" then .ok (-1) else .ok 1)
  else if acc = "bb" ∧ vz = 'b' then .ok (-1)
  else if acc = "##" ∧ vz = '#' then .ok 1
  else .error .mcFail

/-- Modelled from the spec: the accidental compatibility table of §4.5,
inverse step 4 — requested accidental × implied accidental → offset,
`none` meaning invalid. -/
def specAccTable (acc : String) (vz : Char) : Option ℤ :=
  if acc = "_" then some 0
  else if acc = "n" then
    (if vz = '#' then some (-1) else if vz = 'b' then some 1 else none)
  else if acc = "#" then (if vz = '_' then some 1 else none)
  else if acc = "b" then (if vz = '_' then some (-1) else none)
  else if acc = "##" then (if vz = '#' then some 1 else none)
  else if acc = "bb" then (if vz = 'b' then some (-1) else none)
  else none

/-- The calculation part of the notation setter (converter.py lines
498-537) for a validated (head position, accidental) pair, ending in the
`note_value` property's range check. -/
def scoreCalc (k c : String) (hp : ℤ) (acc : String) : Except PyFail ℤ :=
  let basePos := hp - clefOffset c
  let octv := basePos.fdiv 7 + 4
  let hio := (basePos.emod 7).toNat
  let ko7 := keyOffs k
  let vals7 := (List.range 7).map (fun i => baseVals.getD i 0 + ko7.getD i 0)
  let nio := vals7.getD hio 0
  let hnv := nio + (octv - 4) * 12
  let vz := (keyAccList k).getD hio ' '
  match accOffsetOf acc vz with
  | .error er => .error er
  | .ok off =>
    let v := hnv + off
    if -58 ≤ v ∧ v ≤ 66 then .ok v else .error .mcFail

/-- The accidental strings accepted by the notation setter
(converter.py line 475). -/
def signsList : List String := [r"##", r"#", r"n", r"_", r"b", r"bb"]

/-- The four input forms the notation setter dispatches on: a string, a
bare int, a list (second element optional), a (head position, accidental)
tuple. -/
inductive ScoreIn where
  | txt (cs : List Char)
  | num (i : ℤ)
  | lst (i : ℤ) (a : Option String)
  | tup (i : ℤ) (a : String)

/-- The full notation setter (converter.py lines 467-537).  For a string
it parses with `score_parser` and keeps only token [0] — the head-position
integer — which then reaches the tuple type-check unconverted and raises
TypeError; parse failures raise MusicConverterError.  Lists and bare ints
are normalized to tuples; tuples are checked against `signs` and then
converted. -/
def scoreSet (k c : String) (inp : ScoreIn) : Except PyFail ℤ :=
  match inp with
  | .txt cs =>
    match scoreParse cs with
    | none => .error .mcFail
    | some _ => .error .typeFail
  | .num i =>
    if (r"_" : String) ∈ signsList then scoreCalc k c i r"_" else .error .mcFail
  | .lst i a =>
    if a.getD r"_" ∈ signsList then scoreCalc k c i (a.getD r"_") else .error .mcFail
  | .tup i a =>
    if a ∈ signsList then scoreCalc k c i a else .error .mcFail

/-- The keys whose pattern sharpens C but leaves B natural: the first
non-space pattern character is '#' and the seventh is '_'.  These are the
keys on which the getter's wrap-around index bug emits an invalid '##'
pair at a chromatic C. -/
def c1ErrKeys : List String := [r"F#/d#", r"B/g#", r"E/c#", r"A/f#", r"D/b"]

/-- Single-pass boolean round-trip check for one key, clef and rounded note
value: every pair the notation getter emits either restores the value
through the notation setter or raises MusicConverterError, at least one
pair restores it, and a rejected pair occurs exactly on the keys of
`c1ErrKeys` at a chromatic C (note value ≡ -9 mod 12). -/
def c1chk (k c : String) (v : ℤ) : Bool :=
  let rs := (scoreOf k c v).map (fun p => scoreSet k c (.tup p.1 p.2))
  rs.any (fun r => r == .ok v) &&
    (rs.all (fun r => r == .ok v || r == .error .mcFail) &&
      (rs.any (fun r => r == .error .mcFail) ==
        (decide (k ∈ c1ErrKeys) && decide ((v + 9).emod 12 = 0))))

/-- The round-trip check over all three clefs and the full note value
range [-58, 66] for one key. -/
def c1chkKey (k : String) : Bool :=
  (List.range 125).all (fun i =>
    clefNames.all (fun c => c1chk k c (-58 + (i : ℤ))))

/-! ## note_name getter and setter (converter.py lines 316-356) -/

/-- Python `str` of an integer, as characters. -/
def intRepr (i : ℤ) : List Char :=
  if i < 0 then '-' :: Nat.toDigits 10 (-i).toNat else Nat.toDigits 10 i.toNat

/-- The `note_names` table of the getter (converter.py lines 323-336),
keyed by the chromatic offset within the octave, rendering the octave
number into the name(s). -/
def nameAt (idx octv : ℤ) : List Char :=
  let o := intRepr octv
  if idx = -9 then 'C' :: o
  else if idx = -8 then 'C' :: '#' :: o ++ '/' :: 'D' :: 'b' :: o
  else if idx = -7 then 'D' :: o
  else if idx = -6 then 'D' :: '#' :: o ++ '/' :: 'E' :: 'b' :: o
  else if idx = -5 then 'E' :: o
  else if idx = -4 then 'F' :: o
  else if idx = -3 then 'F' :: '#' :: o ++ '/' :: 'G' :: 'b' :: o
  else if idx = -2 then 'G' :: o
  else if idx = -1 then 'G' :: '#' :: o ++ '/' :: 'A' :: 'b' :: o
  else if idx = 0 then 'A' :: o
  else if idx = 1 then 'A' :: '#' :: o ++ '/' :: 'B' :: 'b' :: o
  else if idx = 2 then 'B' :: o
  else []

/-- The note_name getter (converter.py lines 316-342) on the exact decimal
note value: name of the rounded step plus a signed cent suffix when the
fractional part is nonzero. -/
def noteNameOf (nv : Dec) : List Char :=
  let steps := nv.roundPy
  let octv := octaveOf steps
  let nm := nameAt (steps - (octv - 4) * 12) octv
  let cents := Dec.roundPy ⟨(nv.n - steps * (tenPow nv.e : ℤ)) * 100, nv.e⟩
  let centsCs : List Char :=
    if cents = 0 then [] else if 0 < cents then '+' :: intRepr cents else intRepr cents
  if centsCs = [] then nm else nm ++ ' ' :: centsCs

/-- The note_name setter (converter.py lines 344-356): parse with
note_parser and store, with NO range check; ParseException becomes
MusicConverterError, the enharmonic ValueError propagates. -/
def nameSet (cs : List Char) : Except PyFail Dec :=
  match noteParse cs with
  | .error .parseFail => .error .mcFail
  | .error er => .error er
  | .ok d => .ok d

/-- The note_value setter on a string (converter.py lines 193-207): parse
with note_parser, then range check -58 ≤ v ≤ 66 (MusicConverterError
outside). -/
def nvSetVal (cs : List Char) : Except PyFail Dec :=
  match noteParse cs with
  | .error .parseFail => .error .mcFail
  | .error er => .error er
  | .ok d => if d.geI (-58) ∧ d.leI 66 then .ok d else .error .mcFail

/-! ## Converter state over ℝ (converter.py lines 169-306)

The float state of one MusicConverter instance and its numeric-path
setters.  Text-path setters parse to an exact decimal and then run the
same range checks, so the numeric ops below (quantified over arbitrary
reals) subsume them; note_name and notation keep their own text paths
because their behaviour differs. -/

/-- The state a MusicConverter owns: note value, base frequency, amplitude,
key, clef. -/
structure CState where
  nv : ℝ
  bf : ℝ
  amp : ℝ
  key : String
  clef : String

/-- The root constant as a real number. -/
noncomputable def rootR : ℝ := (rootQ : ℝ)

/-- The real value of an exact decimal. -/
noncomputable def Dec.toReal (d : Dec) : ℝ := (d.toRat : ℝ)

/-- State after `__init__` with default arguments: the constructor sets
`__note_value__ = 0`, `__base_freq__ = 440`, then runs the (buggy)
base_freq setter with 440 — which assigns note_value = log(440/440)/log(root)
= 0 — then key C/a, clef violin, amplitude 0.5. -/
noncomputable def initState : CState :=
  { nv := 0, bf := 440, amp := 1 / 2, key := r"C/a", clef := r"violin" }

/-- The setter calls that mutate the stored note value. -/
inductive Op where
  | setNv (x : ℝ)
  | setFreq (x : ℝ)
  | setBase (x : ℝ)
  | setName (cs : List Char)
  | setScore (hp : ℤ) (acc : String)

/-- True for note_name setter calls. -/
def Op.isName : Op → Bool
  | .setName _ => true
  | _ => false

/-- One setter call on the state (converter.py lines 193-207, 219-232,
243-256, 344-356, 467-537).  `setBase` is the base_freq setter as written:
it range-checks the input but then assigns `__note_value__` (not
`__base_freq__`), exactly like the frequency setter.  `setName` stores the
parsed value with no range check. -/
noncomputable def stepOp (s : CState) : Op → Except PyFail CState
  | .setNv x =>
    if -58 ≤ x ∧ x ≤ 66 then .ok { s with nv := x } else .error .mcFail
  | .setFreq x =>
    if 16 ≤ x ∧ x ≤ 20000 then
      .ok { s with nv := Real.log (x / s.bf) / Real.log rootR }
    else .error .mcFail
  | .setBase x =>
    if 16 ≤ x ∧ x ≤ 20000 then
      .ok { s with nv := Real.log (x / s.bf) / Real.log rootR }
    else .error .mcFail
  | .setName cs =>
    match nameSet cs with
    | .ok d => .ok { s with nv := d.toReal }
    | .error er => .error er
  | .setScore hp acc =>
    match scoreSet s.key s.clef (.tup hp acc) with
    | .ok v => .ok { s with nv := (v : ℝ) }
    | .error er => .error er

/-- A sequence of setter calls, stopping at the first failure (a failed
Python setter raises before mutating). -/
noncomputable def runOps : CState → List Op → Except PyFail CState
  | s, [] => .ok s
  | s, op :: rest =>
    match stepOp s op with
    | .ok s2 => runOps s2 rest
    | .error er => .error er

/-- The frequency getter (converter.py line 217):
`base_freq * root ** note_value`. -/
noncomputable def freqGet (s : CState) : ℝ := s.bf * rootR ^ s.nv

/-- The gain setter, numeric path (converter.py lines 300-304): rejects
gains above 0 dB, stores amplitude 10^(gain/20). -/
noncomputable def gainSetNum (s : CState) (g : ℝ) : Except PyFail CState :=
  if g ≤ 0 then .ok { s with amp := (10 : ℝ) ^ (g / 20) } else .error .mcFail

/-- The gain setter, text path (converter.py lines 295-299): parse with
gain_parser and store the resulting amplitude 10^(±value/20) directly in
`__amplitude__`, with NO range check. -/
noncomputable def gainSetTxt (s : CState) (cs : List Char) : Except PyFail CState :=
  match gainParse cs with
  | some (d, _) => .ok { s with amp := (10 : ℝ) ^ (d.toReal / 20) }
  | none => .error .mcFail

end PyMus

/-! ## Sanity evaluations

The concrete scenarios of the spec (§8) evaluated on the embedded
grammars, tying the model to the source's observable behaviour. -/

namespace PyMus

/-- Scenario: input "A4" gives note value 0. -/
theorem sanityA4 : (noteParse ("A4").data).map Dec.toRat = .ok 0 := by decide

/-- Scenario: input "A4 +30" gives note value 0.30. -/
theorem sanityA4cents :
    (noteParse ("A4 +30").data).map Dec.toRat = .ok (Rat.divInt 3 10) := by decide

/-- Scenario: "440Hz" parses as a frequency of 440. -/
theorem sanityHertz : inputParse ("440Hz").data = .ok (.freqA ⟨440, 0⟩) := by decide

/-- Scenario: "35%" parses as amplitude 0.35. -/
theorem sanityAmp : inputParse ("35%").data = .ok (.ampA ⟨35, 2⟩) := by decide

/-- Scenario: key C/a, clef violin, note value 0 renders on the staff with
no accidental. -/
theorem sanityScoreA4 : scoreOf (r"C/a") (r"violin") 0 = [(-1, r"_")] := by decide

end PyMus

namespace PyMus

/-! ## Claim theorems -/

/-- C1 counterexample: with key B/g# (C sharp in the key, B natural) and
violin clef, at note value −9 (a chromatic C) the notation getter emits
(−7, "##") as its first alternative — the Python `key_offset[i - 1]` index
wraps to the appended copy of the C offset instead of B's — and the
notation setter rejects that pair with MusicConverterError instead of
restoring −9. -/
theorem c1Cex :
    scoreOf r"B/g#" r"violin" (-9) = [(-7, r"##"), (-6, r"n")] ∧
    scoreSet r"B/g#" r"violin" (.tup (-7) r"##") = .error .mcFail := by decide

set_option maxRecDepth 100000 in
set_option maxHeartbeats 1000000 in
/-- Round-trip check for key C/a, all clefs and values. -/
theorem c1Key01 : c1chkKey (r"C/a") = true := by decide

set_option maxRecDepth 100000 in
set_option maxHeartbeats 1000000 in
/-- Round-trip check for key F/d, all clefs and values. -/
theorem c1Key02 : c1chkKey (r"F/d") = true := by decide

set_option maxRecDepth 100000 in
set_option maxHeartbeats 1000000 in
/-- Round-trip check for key Bb/g, all clefs and values. -/
theorem c1Key03 : c1chkKey (r"Bb/g") = true := by decide

set_option maxRecDepth 100000 in
set_option maxHeartbeats 1000000 in
/-- Round-trip check for key Eb/c, all clefs and values. -/
theorem c1Key04 : c1chkKey (r"Eb/c") = true := by decide

set_option maxRecDepth 100000 in
set_option maxHeartbeats 1000000 in
/-- Round-trip check for key Ab/f, all clefs and values. -/
theorem c1Key05 : c1chkKey (r"Ab/f") = true := by decide

set_option maxRecDepth 100000 in
set_option maxHeartbeats 1000000 in
/-- Round-trip check for key Db/bb, all clefs and values. -/
theorem c1Key06 : c1chkKey (r"Db/bb") = true := by decide

set_option maxRecDepth 100000 in
set_option maxHeartbeats 1000000 in
/-- Round-trip check for key C#/a#, all clefs and values. -/
theorem c1Key07 : c1chkKey (r"C#/a#") = true := by decide

set_option maxRecDepth 100000 in
set_option maxHeartbeats 1000000 in
/-- Round-trip check for key F#/d#, all clefs and values. -/
theorem c1Key08 : c1chkKey (r"F#/d#") = true := by decide

set_option maxRecDepth 100000 in
set_option maxHeartbeats 1000000 in
/-- Round-trip check for key Gb/eb, all clefs and values. -/
theorem c1Key09 : c1chkKey (r"Gb/eb") = true := by decide

set_option maxRecDepth 100000 in
set_option maxHeartbeats 1000000 in
/-- Round-trip check for key B/g#, all clefs and values. -/
theorem c1Key10 : c1chkKey (r"B/g#") = true := by decide

set_option maxRecDepth 100000 in
set_option maxHeartbeats 1000000 in
/-- Round-trip check for key Cb/ab, all clefs and values. -/
theorem c1Key11 : c1chkKey (r"Cb/ab") = true := by decide

set_option maxRecDepth 100000 in
set_option maxHeartbeats 1000000 in
/-- Round-trip check for key E/c#, all clefs and values. -/
theorem c1Key12 : c1chkKey (r"E/c#") = true := by decide

set_option maxRecDepth 100000 in
set_option maxHeartbeats 1000000 in
/-- Round-trip check for key A/f#, all clefs and values. -/
theorem c1Key13 : c1chkKey (r"A/f#") = true := by decide

set_option maxRecDepth 100000 in
set_option maxHeartbeats 1000000 in
/-- Round-trip check for key D/b, all clefs and values. -/
theorem c1Key14 : c1chkKey (r"D/b") = true := by decide

set_option maxRecDepth 100000 in
set_option maxHeartbeats 1000000 in
/-- Round-trip check for key G/e, all clefs and values. -/
theorem c1Key15 : c1chkKey (r"G/e") = true := by decide

/-- Soundness of the boolean check: it implies the round-trip property and
the exact characterization of the rejected-pair cases. -/
theorem c1chk_sound (k c : String) (v : ℤ) (h : c1chk k c v = true) :
    ((∃ p ∈ scoreOf k c v, scoreSet k c (.tup p.1 p.2) = .ok v) ∧
     (∀ p ∈ scoreOf k c v, scoreSet k c (.tup p.1 p.2) = .ok v ∨
       scoreSet k c (.tup p.1 p.2) = .error .mcFail)) ∧
    ((∃ p ∈ scoreOf k c v, scoreSet k c (.tup p.1 p.2) = .error .mcFail) ↔
      k ∈ c1ErrKeys ∧ (v + 9).emod 12 = 0) := by
  unfold c1chk at h
  simp only [Bool.and_eq_true, List.any_eq_true, List.all_eq_true,
    beq_iff_eq, Bool.or_eq_true] at h
  obtain ⟨⟨x, hx, hxe⟩, hall, herr⟩ := h
  obtain ⟨p0, hp0, rfl⟩ := List.mem_map.mp hx
  refine ⟨⟨⟨p0, hp0, hxe⟩, fun p hp => hall _ (List.mem_map.mpr ⟨p, hp, rfl⟩)⟩, ?_, ?_⟩
  · rintro ⟨p, hp, hpe⟩
    have hany : ((scoreOf k c v).map
        (fun p => scoreSet k c (.tup p.1 p.2))).any
          (fun r => r == .error .mcFail) = true :=
      List.any_eq_true.mpr ⟨_, List.mem_map.mpr ⟨p, hp, rfl⟩, by simp [hpe]⟩
    rw [herr] at hany
    simpa [Bool.and_eq_true, decide_eq_true_eq] using hany
  · intro hcond
    have hrhs : (decide (k ∈ c1ErrKeys) && decide ((v + 9).emod 12 = 0)) = true := by
      simp [hcond.1, hcond.2]
    rw [← herr] at hrhs
    obtain ⟨x, hx2, hx2e⟩ := List.any_eq_true.mp hrhs
    obtain ⟨p, hp, rfl⟩ := List.mem_map.mp hx2
    exact ⟨p, hp, by simpa using hx2e⟩

/-- Instantiating a key's check at one clef and value. -/
theorem c1chkKey_sound (k : String) (hkey : c1chkKey k = true) (c : String)
    (hc : c ∈ clefNames) (v : ℤ) (h1 : -58 ≤ v) (h2 : v ≤ 66) :
    c1chk k c v = true := by
  unfold c1chkKey at hkey
  simp only [List.all_eq_true, List.mem_range] at hkey
  obtain ⟨i, hilt, rfl⟩ : ∃ i : ℕ, i < 125 ∧ v = -58 + (i : ℤ) :=
    ⟨(v + 58).toNat, by omega, by omega⟩
  exact hkey i hilt c hc

/-- C1 (amended): for every key, every clef, and every integer note value
in [−58, 66], at least one (head position, accidental) pair returned by
the notation getter restores the original note value through the notation
setter, every returned pair either restores it or raises
MusicConverterError, and a rejected pair occurs exactly when the key
sharpens C but leaves B natural (F#/d#, B/g#, E/c#, A/f#, D/b) and the
note value is a chromatic C (≡ −9 mod 12). -/
theorem c1Amended (k : String) (hk : k ∈ keyNames) (c : String)
    (hc : c ∈ clefNames) (v : ℤ) (h1 : -58 ≤ v) (h2 : v ≤ 66) :
    ((∃ p ∈ scoreOf k c v, scoreSet k c (.tup p.1 p.2) = .ok v) ∧
     (∀ p ∈ scoreOf k c v, scoreSet k c (.tup p.1 p.2) = .ok v ∨
       scoreSet k c (.tup p.1 p.2) = .error .mcFail)) ∧
    ((∃ p ∈ scoreOf k c v, scoreSet k c (.tup p.1 p.2) = .error .mcFail) ↔
      k ∈ c1ErrKeys ∧ (v + 9).emod 12 = 0) := by
  have hkey : c1chkKey k = true := by
    simp only [keyNames, keysAssoc, List.map_cons, List.map_nil,
      List.mem_cons, List.not_mem_nil, or_false] at hk
    rcases hk with rfl | rfl | rfl | rfl | rfl | rfl | rfl | rfl | rfl |
      rfl | rfl | rfl | rfl | rfl | rfl
    exacts [c1Key01, c1Key02, c1Key03, c1Key04, c1Key05, c1Key06, c1Key07,
      c1Key08, c1Key09, c1Key10, c1Key11, c1Key12, c1Key13, c1Key14, c1Key15]
  exact c1chk_sound k c v (c1chkKey_sound k hkey c hc v h1 h2)

/-- C1 witness: the amended round trip at key C/a, violin clef, value 0. -/
theorem c1AmendedWitness :
    ((∃ p ∈ scoreOf r"C/a" r"violin" 0,
       scoreSet r"C/a" r"violin" (.tup p.1 p.2) = .ok 0) ∧
     (∀ p ∈ scoreOf r"C/a" r"violin" 0,
       scoreSet r"C/a" r"violin" (.tup p.1 p.2) = .ok 0 ∨
       scoreSet r"C/a" r"violin" (.tup p.1 p.2) = .error .mcFail)) ∧
    ((∃ p ∈ scoreOf r"C/a" r"violin" 0,
       scoreSet r"C/a" r"violin" (.tup p.1 p.2) = .error .mcFail) ↔
      (r"C/a" : String) ∈ c1ErrKeys ∧ ((0 : ℤ) + 9).emod 12 = 0) :=
  c1Amended (r"C/a") (by decide) (r"violin") (by decide) 0 (by decide) (by decide)

/-- C5: the notation setter raises TypeError on every text input — the
parsed token [0] is the bare head-position integer, which skips the
int-to-tuple normalization (an elif of the same chain) and fails the tuple
check — while the equivalent tuple succeeds: "sc 5:#" raises TypeError but
(5, '#') sets note value 11 under key C/a, violin clef. -/
theorem c5TextTypeErr :
    scoreSet r"C/a" r"violin" (.txt ("sc 5:#").data) = .error .typeFail ∧
    scoreSet r"C/a" r"violin" (.tup 5 r"#") = .ok 11 := by decide

/-- C6: the unified input grammar of MusicConverter.set has no key and no
clef alternative (converter.py line 161 carries a "todo" admitting it), so
set("F/d") and set("violin") raise MusicConverterError (wrapped parse
failure) instead of selecting the key or clef. -/
theorem c6MissingAlternatives :
    inputParse ("F/d").data = .error .parseFail ∧
    inputParse ("violin").data = .error .parseFail := by decide

/-- C7 counterexample: the enharmonic pair "D#4/D4" (values −6 and −7)
makes note_parser_action raise ValueError, which the note_value setter
does not catch — the claim promised MusicConverterError. -/
theorem c7Cex :
    nvSetVal ("D#4/D4").data = .error .valueFail ∧
    nvSetVal ("D#4/D4").data ≠ .error .mcFail := by decide

/-- C7 (amended): "D#4/Eb4" parses to the same note value −6 as "D#4" and
as "Eb4" individually and the note_value setter accepts it, but a pair
whose sides resolve to different values, such as "D#4/D4", raises the
uncaught ValueError rather than a MusicConverterError. -/
theorem c7Amended :
    (noteParse ("D#4/Eb4").data).map Dec.toRat = .ok (-6) ∧
    (noteParse ("D#4").data).map Dec.toRat = .ok (-6) ∧
    (noteParse ("Eb4").data).map Dec.toRat = .ok (-6) ∧
    nvSetVal ("D#4/Eb4").data = .ok ⟨-6, 0⟩ ∧
    nvSetVal ("D#4/D4").data = .error .valueFail := by decide

/-- C8: the accidental reconciliation block of the notation setter
realizes exactly the spec's compatibility table — each of the 6 × 3
requested/implied combinations yields the table's offset when the table
lists one and MusicConverterError when it does not. -/
theorem c8Table (acc : String) (ha : acc ∈ signsList) (vz : Char)
    (hv : vz ∈ [('_' : Char), '#', 'b']) :
    accOffsetOf acc vz =
      (match specAccTable acc vz with
       | some o => .ok o
       | none => .error .mcFail) := by
  have H : ∀ a ∈ signsList, ∀ z ∈ [('_' : Char), '#', 'b'],
      accOffsetOf a z =
        (match specAccTable a z with
         | some o => .ok o
         | none => .error .mcFail) := by decide
  exact H acc ha vz hv

/-- C8 witness: natural against implied sharp cancels the sharp. -/
theorem c8TableWitness : accOffsetOf (r"n") '#' = .ok (-1) :=
  (c8Table (r"n") (by decide) '#' (by decide)).trans (by decide)

/-- C10 counterexample: at note value 66 the note_name getter renders
"D#10/Eb10"; octave 10 is two digits, the octave grammar accepts a single
digit, so assigning the rendered name back raises MusicConverterError
instead of succeeding. -/
theorem c10Cex :
    noteNameOf ⟨66, 0⟩ = ("D#10/Eb10").data ∧
    nameSet (noteNameOf ⟨66, 0⟩) = .error .mcFail := by decide

set_option maxRecDepth 100000 in
/-- C10 (amended): for integer note values in [−57, 62] the rendered note
name re-parses to exactly the original value; for −58 and for [63, 66] the
rendered octave (−1 or 10) is not a single digit and re-assignment raises
MusicConverterError. -/
theorem c10Amended (v : ℤ) (h1 : -58 ≤ v) (h2 : v ≤ 66) :
    (-57 ≤ v ∧ v ≤ 62 → nameSet (noteNameOf ⟨v, 0⟩) = .ok ⟨v, 0⟩) ∧
    (v = -58 ∨ 63 ≤ v → nameSet (noteNameOf ⟨v, 0⟩) = .error .mcFail) := by
  have key : ∀ i : ℕ, i < 125 →
      (-57 ≤ -58 + (i : ℤ) ∧ -58 + (i : ℤ) ≤ 62 →
        nameSet (noteNameOf ⟨-58 + (i : ℤ), 0⟩) = .ok ⟨-58 + (i : ℤ), 0⟩) ∧
      (-58 + (i : ℤ) = -58 ∨ 63 ≤ -58 + (i : ℤ) →
        nameSet (noteNameOf ⟨-58 + (i : ℤ), 0⟩) = .error .mcFail) := by decide
  obtain ⟨i, hilt, rfl⟩ : ∃ i : ℕ, i < 125 ∧ v = -58 + (i : ℤ) :=
    ⟨(v + 58).toNat, by omega, by omega⟩
  exact key i hilt

/-- C10 witness: the round trip at value 0 (name "A4"). -/
theorem c10AmendedWitness : nameSet (noteNameOf ⟨0, 0⟩) = .ok ⟨0, 0⟩ :=
  (c10Amended 0 (by decide) (by decide)).1 (by decide)

end PyMus

namespace PyMus

/-! ## Helper lemmas for the real-valued claims -/

/-- The root constant exceeds 1. -/
theorem one_lt_rootR : (1 : ℝ) < rootR := by
  show (1 : ℝ) < (rootQ : ℝ)
  have hq : (1 : ℚ) < rootQ := by
    rw [rootQ, Rat.divInt_eq_div]; norm_num
  exact_mod_cast hq

/-- The root constant is positive. -/
theorem rootR_pos : (0 : ℝ) < rootR := lt_trans one_pos one_lt_rootR

/-- Its logarithm is positive. -/
theorem log_rootR_pos : 0 < Real.log rootR := Real.log_pos one_lt_rootR

/-- root^67 dominates 20000/440 (note value 67 is beyond the audible
range's image). -/
theorem rootR_pow_le67 : (500 : ℝ) / 11 ≤ rootR ^ (67 : ℕ) := by
  show (500 : ℝ) / 11 ≤ (rootQ : ℝ) ^ (67 : ℕ)
  have hq : (500 : ℚ) / 11 ≤ rootQ ^ (67 : ℕ) := by
    rw [rootQ, Rat.divInt_eq_div]; norm_num
  have h2 : (((500 : ℚ) / 11 : ℚ) : ℝ) ≤ ((rootQ ^ (67 : ℕ) : ℚ) : ℝ) := by
    exact_mod_cast hq
  push_cast at h2
  exact h2

/-- root^58 dominates 440/16 (so 16 Hz stays above note value −58). -/
theorem rootR_pow_ge58 : (55 : ℝ) / 2 ≤ rootR ^ (58 : ℕ) := by
  show (55 : ℝ) / 2 ≤ (rootQ : ℝ) ^ (58 : ℕ)
  have hq : (55 : ℚ) / 2 ≤ rootQ ^ (58 : ℕ) := by
    rw [rootQ, Rat.divInt_eq_div]; norm_num
  have h2 : (((55 : ℚ) / 2 : ℚ) : ℝ) ≤ ((rootQ ^ (58 : ℕ) : ℚ) : ℝ) := by
    exact_mod_cast hq
  push_cast at h2
  exact h2

/-- root^66 stays below 20000/440: the claimed invariant bound 66 is too
small for the frequency setter's image. -/
theorem rootR_pow_lt66 : rootR ^ (66 : ℕ) < (500 : ℝ) / 11 := by
  show (rootQ : ℝ) ^ (66 : ℕ) < (500 : ℝ) / 11
  have hq : rootQ ^ (66 : ℕ) < (500 : ℚ) / 11 := by
    rw [rootQ, Rat.divInt_eq_div]; norm_num
  have h2 : ((rootQ ^ (66 : ℕ) : ℚ) : ℝ) < (((500 : ℚ) / 11 : ℚ) : ℝ) := by
    exact_mod_cast hq
  push_cast at h2
  exact h2

/-- The note value stored for the maximal accepted frequency 20000 Hz
exceeds 66: the frequency setter really overshoots the claimed bound. -/
theorem logRatio_20000_gt66 :
    66 < Real.log ((20000 : ℝ) / 440) / Real.log rootR := by
  rw [lt_div_iff₀ log_rootR_pos]
  rw [show (20000 : ℝ) / 440 = 500 / 11 by norm_num]
  rw [show (66 : ℝ) * Real.log rootR = Real.log (rootR ^ (66 : ℕ)) by
    rw [Real.log_pow]; push_cast; ring]
  exact Real.log_lt_log (pow_pos rootR_pos 66) rootR_pow_lt66

/-- The note value the frequency/base_freq setters store, for an input
frequency in the accepted range [16, 20000] against the (never-changing)
stored base of 440, lies in [−58, 67]. -/
theorem logRatio_mem (x : ℝ) (h1 : 16 ≤ x) (h2 : x ≤ 20000) :
    -58 ≤ Real.log (x / 440) / Real.log rootR ∧
    Real.log (x / 440) / Real.log rootR ≤ 67 := by
  have hL := log_rootR_pos
  have hxd : (0 : ℝ) < x / 440 := by positivity
  constructor
  · rw [le_div_iff₀ hL]
    have hmono : Real.log (2 / 55) ≤ Real.log (x / 440) := by
      apply Real.log_le_log (by norm_num)
      rw [div_le_div_iff₀ (by norm_num) (by norm_num)]
      linarith
    have hkey : (-58 : ℝ) * Real.log rootR ≤ Real.log (2 / 55) := by
      have hid : (-58 : ℝ) * Real.log rootR = Real.log ((rootR ^ (58 : ℕ))⁻¹) := by
        rw [Real.log_inv, Real.log_pow]; push_cast; ring
      rw [hid]
      apply Real.log_le_log (inv_pos.mpr (pow_pos rootR_pos 58))
      rw [inv_le_comm₀ (pow_pos rootR_pos 58) (by norm_num)]
      rw [show ((2 : ℝ) / 55)⁻¹ = 55 / 2 by norm_num]
      exact rootR_pow_ge58
    linarith
  · rw [div_le_iff₀ hL]
    have hmono : Real.log (x / 440) ≤ Real.log (rootR ^ (67 : ℕ)) := by
      apply Real.log_le_log hxd
      calc x / 440 ≤ 500 / 11 := by
            rw [div_le_div_iff₀ (by norm_num) (by norm_num)]; linarith
        _ ≤ rootR ^ (67 : ℕ) := rootR_pow_le67
    have hid : Real.log (rootR ^ (67 : ℕ)) = (67 : ℝ) * Real.log rootR := by
      rw [Real.log_pow]; push_cast; ring
    linarith [hid ▸ hmono]

/-- Whenever the notation setter calculation succeeds, the stored value
passed the note_value range check. -/
theorem scoreCalc_ok_range (k c : String) (hp : ℤ) (acc : String) (v : ℤ)
    (h : scoreCalc k c hp acc = .ok v) : -58 ≤ v ∧ v ≤ 66 := by
  simp only [scoreCalc] at h
  split at h
  · exact absurd h (by simp)
  · split at h
    · rename_i hcond
      obtain rfl : _ = v := by injection h
      exact hcond
    · exact absurd h (by simp)

/-- One successful setter call other than note_name keeps the note value
in [−58, 67] and the base frequency at 440. -/
theorem c9Inv_step (s : CState) (hnv : -58 ≤ s.nv ∧ s.nv ≤ 67)
    (hbf : s.bf = 440) (op : Op) (hop : op.isName = false) (s2 : CState)
    (h : stepOp s op = .ok s2) :
    (-58 ≤ s2.nv ∧ s2.nv ≤ 67) ∧ s2.bf = 440 := by
  cases op with
  | setNv x =>
    simp only [stepOp] at h
    split at h
    · rename_i hcond
      obtain rfl : _ = s2 := by injection h
      exact ⟨⟨hcond.1, by linarith [hcond.2]⟩, hbf⟩
    · exact absurd h (by simp)
  | setFreq x =>
    simp only [stepOp] at h
    split at h
    · rename_i hcond
      obtain rfl : _ = s2 := by injection h
      have := logRatio_mem x hcond.1 hcond.2
      rw [hbf] at *
      exact ⟨this, rfl⟩
    · exact absurd h (by simp)
  | setBase x =>
    simp only [stepOp] at h
    split at h
    · rename_i hcond
      obtain rfl : _ = s2 := by injection h
      have := logRatio_mem x hcond.1 hcond.2
      rw [hbf] at *
      exact ⟨this, rfl⟩
    · exact absurd h (by simp)
  | setName cs => simp [Op.isName] at hop
  | setScore hp acc =>
    simp only [stepOp] at h
    split at h
    · rename_i v hv
      obtain rfl : _ = s2 := by injection h
      have hr : -58 ≤ v ∧ v ≤ 66 := by
        simp only [scoreSet] at hv
        split at hv
        · exact scoreCalc_ok_range _ _ _ _ _ hv
        · exact absurd hv (by simp)
      refine ⟨⟨?_, ?_⟩, hbf⟩
      · show (-58 : ℝ) ≤ (v : ℤ)
        exact_mod_cast hr.1
      · show ((v : ℤ) : ℝ) ≤ 67
        have : (v : ℤ) ≤ 67 := by omega
        exact_mod_cast this
    · exact absurd h (by simp)

/-- The invariant carries through any successful run of such setter calls. -/
theorem c9Inv_run (ops : List Op) (hops : ∀ op ∈ ops, op.isName = false) :
    ∀ s : CState, -58 ≤ s.nv ∧ s.nv ≤ 67 → s.bf = 440 →
      ∀ s2, runOps s ops = .ok s2 →
        (-58 ≤ s2.nv ∧ s2.nv ≤ 67) ∧ s2.bf = 440 := by
  induction ops with
  | nil =>
    intro s h1 h2 s2 hr
    simp only [runOps] at hr
    obtain rfl : s = s2 := by injection hr
    exact ⟨h1, h2⟩
  | cons op rest ih =>
    intro s h1 h2 s2 hr
    simp only [runOps] at hr
    split at hr
    · rename_i smid hmid
      have hstep := c9Inv_step s h1 h2 op (hops op (by simp)) smid hmid
      exact ih (fun o ho => hops o (List.mem_cons_of_mem _ ho)) smid
        hstep.1 hstep.2 s2 hr
    · exact absurd hr (by simp)

end PyMus

namespace PyMus

/-- Unfolding lemma: a successful first call prefixes a run. -/
theorem runOps_cons (s : CState) (op : Op) (rest : List Op) (s2 : CState)
    (h : stepOp s op = .ok s2) : runOps s (op :: rest) = runOps s2 rest := by
  simp only [runOps, h]

/-- C2 (code bug): the base_freq setter is the frequency setter's body —
setting base_freq to 880 from the initial state stores
log(880/440)/log(root) > 0 into note_value (which the claim says must not
change: it was 0) and leaves the stored base frequency at 440 (so the
note-value-to-frequency mapping is not rescaled either). -/
theorem c2BaseFreqBug :
    stepOp initState (.setBase 880) =
      .ok { initState with nv := Real.log 2 / Real.log rootR } ∧
    initState.nv = 0 ∧ initState.bf = 440 ∧
    ({ initState with nv := Real.log 2 / Real.log rootR }).bf = 440 ∧
    0 < Real.log 2 / Real.log rootR := by
  refine ⟨?_, rfl, rfl, rfl,
    div_pos (Real.log_pos (by norm_num)) log_rootR_pos⟩
  simp only [stepOp]
  rw [if_pos (by norm_num : (16 : ℝ) ≤ 880 ∧ (880 : ℝ) ≤ 20000)]
  norm_num [initState]

/-- C3 (code bug): after base_freq := 880 and note_value := 0 the state is
back to the initial one — base_freq was never stored — so the frequency
getter returns 440, not the 880 the claim requires. -/
theorem c3FreqBaseBug :
    runOps initState [.setBase 880, .setNv 0] = .ok initState ∧
    freqGet initState = 440 ∧ (440 : ℝ) ≠ 880 := by
  refine ⟨?_, ?_, by norm_num⟩
  · have h1 : stepOp initState (.setBase 880) =
        .ok { initState with nv := Real.log ((880 : ℝ) / 440) / Real.log rootR } := by
      simp only [stepOp]
      rw [if_pos (by norm_num : (16 : ℝ) ≤ 880 ∧ (880 : ℝ) ≤ 20000)]
      norm_num [initState]
    have h2 : stepOp
        { initState with nv := Real.log ((880 : ℝ) / 440) / Real.log rootR }
        (.setNv 0) = .ok initState := by
      simp only [stepOp]
      rw [if_pos (by norm_num : (-58 : ℝ) ≤ 0 ∧ (0 : ℝ) ≤ 66)]
      rfl
    rw [runOps_cons initState _ _ _ h1, runOps_cons _ _ _ _ h2]
    rfl
  · show initState.bf * rootR ^ initState.nv = 440
    show (440 : ℝ) * rootR ^ (0 : ℝ) = 440
    rw [Real.rpow_zero, mul_one]

/-- C4 counterexample: the text input "+3.5dB" is a gain above 0 dB, yet
the gain setter's string path accepts it and stores amplitude
10^(3.5/20) > 1 directly into the private field with no range check. -/
theorem c4Cex :
    (gainSetTxt initState ("+3.5dB").data).map CState.amp =
      .ok ((10 : ℝ) ^ ((7 : ℝ) / 2 / 20)) ∧
    1 < (10 : ℝ) ^ ((7 : ℝ) / 2 / 20) := by
  constructor
  · have h : gainParse ("+3.5dB").data = some (⟨35, 1⟩, []) := by decide
    simp only [gainSetTxt, h, Except.map]
    congr 2
    show ((Dec.toRat ⟨35, 1⟩ : ℚ) : ℝ) / 20 = (7 : ℝ) / 2 / 20
    rw [show Dec.toRat ⟨35, 1⟩ = Rat.divInt 35 10 from rfl, Rat.divInt_eq_div]
    push_cast
    norm_num
  · rw [Real.one_lt_rpow_iff_of_pos (by norm_num)]
    left
    constructor <;> norm_num

/-- C4 (amended): the numeric path of the gain setter rejects every gain
above 0 dB and, on success, stores amplitude 10^(gain/20) ≤ 1; the text
path (see the counterexample) performs no such check. -/
theorem c4Amended (s : CState) (g : ℝ) :
    (0 < g → gainSetNum s g = .error .mcFail) ∧
    (g ≤ 0 → gainSetNum s g = .ok { s with amp := (10 : ℝ) ^ (g / 20) } ∧
      (10 : ℝ) ^ (g / 20) ≤ 1) := by
  constructor
  · intro h
    rw [gainSetNum, if_neg (by linarith)]
  · intro h
    refine ⟨by rw [gainSetNum, if_pos h], ?_⟩
    exact Real.rpow_le_one_of_one_le_of_nonpos (by norm_num) (by linarith)

/-- C4 witness: gain +20 dB (numeric) is rejected; gain −20 dB stores
amplitude 10^(−1) ≤ 1. -/
theorem c4AmendedWitness :
    gainSetNum initState 20 = .error .mcFail ∧
    (gainSetNum initState (-20) =
        .ok { initState with amp := (10 : ℝ) ^ ((-20 : ℝ) / 20) } ∧
      (10 : ℝ) ^ ((-20 : ℝ) / 20) ≤ 1) :=
  ⟨(c4Amended initState 20).1 (by norm_num),
   (c4Amended initState (-20)).2 (by norm_num)⟩

/-- C9 counterexample: the note_name setter performs no range check, so the
single successful call note_name := "A4 +9999" right after construction
stores note value 99.99, far outside [−58, 66]. -/
theorem c9Cex :
    (stepOp initState (.setName ("A4 +9999").data)).map CState.nv =
      .ok ((9999 : ℝ) / 100) ∧
    ¬ ((9999 : ℝ) / 100 ≤ 66) := by
  constructor
  · have h : nameSet ("A4 +9999").data = .ok ⟨9999, 2⟩ := by decide
    simp only [stepOp, h, Except.map]
    congr 1
    show ((Dec.toRat ⟨9999, 2⟩ : ℚ) : ℝ) = (9999 : ℝ) / 100
    rw [show Dec.toRat ⟨9999, 2⟩ = Rat.divInt 9999 100 from rfl, Rat.divInt_eq_div]
    push_cast
    norm_num
  · norm_num

/-- C9 (amended): after construction, every sequence of successful setter
calls avoiding note_name (note_value, frequency, base_freq, notation; the
`set` dispatcher funnels into these) leaves the stored note value in
[−58, 67] and the base frequency at 440; the widening of the claimed bound
66 to 67 is forced: the in-range frequency input 20000 Hz succeeds and
stores log(20000/440)/log(root) > 66.  The note_name setter (see the
counterexample) can store arbitrary values. -/
theorem c9Amended (ops : List Op) (hops : ∀ op ∈ ops, op.isName = false)
    (s : CState) (h : runOps initState ops = .ok s) :
    ((-58 ≤ s.nv ∧ s.nv ≤ 67) ∧ s.bf = 440) ∧
    (stepOp initState (.setFreq 20000) =
        .ok { initState with nv := Real.log ((20000 : ℝ) / 440) / Real.log rootR } ∧
      66 < Real.log ((20000 : ℝ) / 440) / Real.log rootR) := by
  refine ⟨?_, ?_, logRatio_20000_gt66⟩
  · have h0 : (-58 ≤ initState.nv ∧ initState.nv ≤ 67) ∧ initState.bf = 440 := by
      norm_num [initState]
    exact c9Inv_run ops hops initState h0.1 h0.2 s h
  · simp only [stepOp]
    rw [if_pos (by norm_num : (16 : ℝ) ≤ 20000 ∧ (20000 : ℝ) ≤ 20000)]
    norm_num [initState]

/-- C9 witness: the single call note_value := 5 lands inside the range. -/
theorem c9AmendedWitness :
    (((-58 ≤ ({ initState with nv := (5 : ℝ) } : CState).nv ∧
        ({ initState with nv := (5 : ℝ) } : CState).nv ≤ 67) ∧
      ({ initState with nv := (5 : ℝ) } : CState).bf = 440)) ∧
    (stepOp initState (.setFreq 20000) =
        .ok { initState with nv := Real.log ((20000 : ℝ) / 440) / Real.log rootR } ∧
      66 < Real.log ((20000 : ℝ) / 440) / Real.log rootR) := by
  apply c9Amended [Op.setNv 5]
  · intro op hop
    obtain rfl := List.mem_singleton.mp hop
    rfl
  · simp only [runOps, stepOp]
    rw [if_pos (by norm_num : (-58 : ℝ) ≤ 5 ∧ (5 : ℝ) ≤ 66)]

end PyMus
